import Mathlib

/-!
Shallow embedding of `src/rp_handler.py`: a serverless job handler that
validates a job payload, waits for a local rendering service, uploads input
media, submits a workflow, polls a history endpoint for completion and
collects the produced output files.  External effects (HTTP requests, the
filesystem, base64 decoding) are modelled by oracle records; the Python
control flow is translated branch by branch.  Network and filesystem
operations performed by the handler are additionally recorded as an explicit
trace of `Effect`s.
-/

namespace RpHandler

/-- Opaque workflow graph: the handler passes it through untouched. -/
abbrev Workflow := String

/-- Network / filesystem operations the handler performs, recorded as a trace. -/
inductive Effect where
  | probe (attempt : Nat)
  | download (url : String)
  | post (name : String)
  | submit
  | poll (attempt : Nat)
  | s3 (path : String)
  deriving DecidableEq, Repr

/- ===== string helpers (substring test, posixpath.join, basename) ===== -/

/-- Character-list test: `pat` is a leading block of `s`. -/
def leadMatch : List Char → List Char → Bool
  | [], _ => true
  | _ :: _, [] => false
  | a :: ps, b :: ss => a == b && leadMatch ps ss

/-- Substring occurrence over char lists. -/
def subSearch (pat : List Char) : List Char → Bool
  | [] => pat.isEmpty
  | c :: cs => leadMatch pat (c :: cs) || subSearch pat cs

/-- Python `pat in s` on strings. -/
def hasSub (s pat : String) : Bool := subSearch pat.data s.data

def startsSlash (b : String) : Bool :=
  match b.data with
  | [] => false
  | c :: _ => c == '/'

def endsSlash (a : String) : Bool := a.data.getLast? == some '/'

/-- One step of `posixpath.join`. -/
def joinOne (a b : String) : String :=
  if startsSlash b then b
  else if a == "" || endsSlash a then a ++ b
  else a ++ "/" ++ b

/-- `os.path.join` with three components, as used in the source. -/
def pathJoin3 (a b c : String) : String := joinOne (joinOne a b) c

def afterLastSlash (cur : List Char) : List Char → List Char
  | [] => cur.reverse
  | c :: cs => if c == '/' then afterLastSlash [] cs else afterLastSlash (c :: cur) cs

/-- `os.path.basename`. -/
def basename (p : String) : String := String.mk (afterLastSlash [] p.data)

/- ===== input data model and validation (`validate_input`) ===== -/

/-- One element of the `images` list; key presence is modelled with `Option`. -/
structure ImageItem where
  name : Option String
  image : Option String
  url : Option String
  deriving DecidableEq, Repr

/-- The `images` field of the job input: absent (or null), present but not a
list, or a list of elements. -/
inductive ImagesField where
  | absent
  | notList
  | list (items : List ImageItem)
  deriving DecidableEq, Repr

/-- A job-input object (a JSON dict). -/
structure InputObj where
  workflow : Option Workflow
  images : ImagesField
  deriving DecidableEq, Repr

/-- Raw job input as received: `None`, a string that fails JSON parsing, a
string that parses to an object, or an already structured object. -/
inductive RawInput where
  | null
  | strBad
  | strObj (o : InputObj)
  | obj (o : InputObj)
  deriving DecidableEq, Repr

/-- The validated data returned by `validate_input` on success. -/
structure Validated where
  workflow : Workflow
  images : Option (List ImageItem)
  deriving DecidableEq, Repr

/-- The validator's check for a single element of the images list:
`any(k in image for k in ("image", "url")) and "name" in image`. -/
def itemOk (it : ImageItem) : Bool :=
  (it.image.isSome || it.url.isSome) && it.name.isSome

def malformedImagesMsg : String :=
  "\x27images\x27 must be a list of objects with \x27name\x27 and either \x27image\x27 (base64) or \x27url\x27"

/-- The body of `validate_input` once the input is an object. -/
def validateObj (o : InputObj) : Except String Validated :=
  match o.workflow with
  | none => .error "Missing \x27workflow\x27 parameter"
  | some wf =>
    match o.images with
    | .absent => .ok ⟨wf, none⟩
    | .notList => .error malformedImagesMsg
    | .list items =>
      if items.all itemOk then .ok ⟨wf, some items⟩
      else .error malformedImagesMsg

/-- `validate_input`: `(validated, None)` on success, `(None, message)` on
failure, modelled as `Except`. -/
def validate_input : RawInput → Except String Validated
  | .null => .error "Please provide input"
  | .strBad => .error "Invalid JSON format in input"
  | .strObj o => validateObj o
  | .obj o => validateObj o

/- ===== server readiness probe (`check_server`) ===== -/

/-- Outcome of one readiness GET: an HTTP status code, or a request
exception (swallowed by the probe). -/
inductive ProbeRes where
  | code (n : Nat)
  | exn
  deriving DecidableEq, Repr

def COMFY_API_AVAILABLE_INTERVAL_MS : Nat := 50
def COMFY_API_AVAILABLE_MAX_RETRIES : Nat := 500

/-- `check_server`: loop up to the retry budget, return true on the first
HTTP 200; exceptions are swallowed; the sleep between attempts is not
modelled.  `i` is the index of the next attempt, the last argument the
remaining budget. -/
def check_server (res : Nat → ProbeRes) : Nat → Nat → Bool × List Effect
  | _, 0 => (false, [])
  | i, fuel + 1 =>
    match res i with
    | .code 200 => (true, [.probe i])
    | _ => ((check_server res (i + 1) fuel).1, .probe i :: (check_server res (i + 1) fuel).2)

/- ===== input upload (`upload_images`) ===== -/

/-- Outcome of `requests.get(url, stream=True)`: a status code together with
the streamed body, or a raised exception. -/
inductive DlRes where
  | code (n : Nat) (bytes : String)
  | exn (msg : String)
  deriving DecidableEq, Repr

/-- Outcome of `requests.post` to the upload endpoint. -/
inductive PostRes where
  | code (n : Nat) (text : String)
  | exn (msg : String)
  deriving DecidableEq, Repr

/-- Oracles for the external effects of one upload: download a URL, write
then re-read the temporary file (returning the blob or raising), decode a
base64 payload (returning bytes or raising), and post the multipart form. -/
structure UploadEnv where
  download : String → DlRes
  tmpRW : String → String → Except String String
  decode : String → Except String String
  post : String → String → PostRes

/-- `image.get("name")`, with Python rendering `None` into the f-strings. -/
def nameOf (img : ImageItem) : String := img.name.getD "None"

/-- The tail of one loop iteration of `upload_images`: post the resolved
blob to the upload endpoint. -/
def postBlob (env : UploadEnv) (name blob : String) (effs : List Effect) :
    Except String String × List Effect :=
  match env.post name blob with
  | .exn m => (.error ("Error processing " ++ name ++ ": " ++ m), effs ++ [.post name])
  | .code c text =>
    if c != 200 then (.error ("Error uploading " ++ name ++ ": " ++ text), effs ++ [.post name])
    else (.ok ("✅ Uploaded " ++ name), effs ++ [.post name])

/-- One loop iteration of `upload_images`: resolve the blob from the URL or
the inline base64 payload, then post it.  Any exception raised inside the
iteration is caught and becomes a per-entry error message. -/
def processImage (env : UploadEnv) (img : ImageItem) : Except String String × List Effect :=
  let name := nameOf img
  match img.url with
  | some url =>
    match env.download url with
    | .exn m => (.error ("Error processing " ++ name ++ ": " ++ m), [.download url])
    | .code c bytes =>
      if c == 200 then
        match env.tmpRW ("/tmp/" ++ name) bytes with
        | .error m => (.error ("Error processing " ++ name ++ ": " ++ m), [.download url])
        | .ok blob => postBlob env name blob [.download url]
      else
        (.error ("Failed to download " ++ name ++ ": HTTP " ++ toString c), [.download url])
  | none =>
    match img.image with
    | some b64 =>
      match env.decode b64 with
      | .error m => (.error ("Error processing " ++ name ++ ": " ++ m), [])
      | .ok blob => postBlob env name blob []
    | none =>
      (.error ("No valid \x27url\x27 or \x27image\x27 found for " ++ name), [])

/-- The loop of `upload_images`: accumulate success messages (`responses`)
and error messages (`upload_errors`) in input order. -/
def uploadLoop (env : UploadEnv) : List ImageItem → (List String × List String) × List Effect
  | [] => (([], []), [])
  | img :: rest =>
    let r := processImage env img
    let tail := uploadLoop env rest
    match r.1 with
    | .ok m => ((m :: tail.1.1, tail.1.2), r.2 ++ tail.2)
    | .error m => ((tail.1.1, m :: tail.1.2), r.2 ++ tail.2)

/-- The overall result dict of `upload_images`. -/
structure UploadOutcome where
  status : String
  message : String
  details : List String
  deriving DecidableEq, Repr

/-- `upload_images`: an empty or absent list short-circuits to success;
otherwise every entry is processed and the outcome is classified from the
accumulated error list. -/
def upload_images (env : UploadEnv) (images : Option (List ImageItem)) :
    UploadOutcome × List Effect :=
  match images with
  | none => (⟨"success", "No input files to upload", []⟩, [])
  | some [] => (⟨"success", "No input files to upload", []⟩, [])
  | some items =>
    let r := uploadLoop env items
    if r.1.2.isEmpty then (⟨"success", "All inputs uploaded successfully", r.1.1⟩, r.2)
    else (⟨"error", "Some files failed to upload", r.1.2⟩, r.2)

/- ===== output collection (`process_output_files`) ===== -/

/-- A file descriptor inside a node's output manifest. -/
structure FileObj where
  filename : Option String
  subfolder : Option String
  deriving DecidableEq, Repr

/-- One node's output record; the four keys scanned by the source, each
optionally present. -/
structure NodeOutput where
  images : Option (List FileObj)
  gifs : Option (List FileObj)
  videos : Option (List FileObj)
  output : Option (List FileObj)
  deriving DecidableEq, Repr

/-- A flattened output record: media type and absolute local path. -/
structure OutputRec where
  type : String
  path : String
  deriving DecidableEq, Repr

/-- Flatten the descriptors under one manifest key: descriptors without a
`filename` are skipped; the local path joins the output root, the
subfolder (defaulting to empty) and the filename. -/
def filesOfKey (root ty : String) : List FileObj → List OutputRec
  | [] => []
  | f :: rest =>
    match f.filename with
    | none => filesOfKey root ty rest
    | some fn => ⟨ty, pathJoin3 root (f.subfolder.getD "") fn⟩ :: filesOfKey root ty rest

/-- Scan one node's output in the source's key order `images`, `gifs`,
`videos`, `output`; `videos`/`output` classify as video, the others as
image. -/
def nodeRecs (root : String) (n : NodeOutput) : List OutputRec :=
  (match n.images with | some l => filesOfKey root "image" l | none => [])
    ++ (match n.gifs with | some l => filesOfKey root "image" l | none => [])
    ++ (match n.videos with | some l => filesOfKey root "video" l | none => [])
    ++ (match n.output with | some l => filesOfKey root "video" l | none => [])

/-- Flatten the whole outputs manifest into `output_files`. -/
def collectRecs (root : String) : List (String × NodeOutput) → List OutputRec
  | [] => []
  | (_, n) :: rest => nodeRecs root n ++ collectRecs root rest

/-- One entry of the result `files` list. -/
structure ResultFile where
  type : String
  filename : String
  status : String
  url : Option String
  data : Option String
  message : Option String
  deriving DecidableEq, Repr

/-- Oracles for the collector: bucket configuration, file existence, the
object-storage uploader and base64 file encoding. -/
structure CollectEnv where
  bucket : Option String
  fileExists : String → Bool
  s3upload : String → String → String
  encodeFile : String → String

/-- Truthiness of `BUCKET_ENDPOINT_URL` (`if bucket_url:`): unset or the
empty string are falsy. -/
def bucketTruthy : Option String → Bool
  | none => false
  | some s => s != ""

/-- One iteration of the collection loop: a missing local file yields a
per-file "missing" record; otherwise upload to the bucket or inline-encode. -/
def mkResult (env : CollectEnv) (jobId : String) (r : OutputRec) : ResultFile × List Effect :=
  let filename := basename r.path
  if env.fileExists r.path then
    if bucketTruthy env.bucket then
      (⟨r.type, filename, "uploaded", some (env.s3upload jobId r.path), none, none⟩, [.s3 r.path])
    else
      (⟨r.type, filename, "base64", none, some (env.encodeFile r.path), none⟩, [])
  else
    (⟨r.type, filename, "missing", none, none, some ("File not found: " ++ r.path)⟩, [])

/-- The collection loop over all flattened output records. -/
def collectLoop (env : CollectEnv) (jobId : String) : List OutputRec → List ResultFile × List Effect
  | [] => ([], [])
  | r :: rest =>
    let m := mkResult env jobId r
    let tail := collectLoop env jobId rest
    (m.1 :: tail.1, m.2 ++ tail.2)

/-- `f["type"] == "video" and "-audio" in f["filename"]`. -/
def isVideoAudio (f : ResultFile) : Bool := f.type == "video" && hasSub f.filename "-audio"

/-- `f["type"] == "video"`. -/
def isVideoFile (f : ResultFile) : Bool := f.type == "video"

/-- Primary-video selection: first video whose filename contains "-audio",
else the first video, else none. -/
def primarySel (results : List ResultFile) : Option ResultFile :=
  match results.find? isVideoAudio with
  | some f => some f
  | none => results.find? isVideoFile

/-- The result of `process_output_files`: either the error dict (no outputs
found) or the success dict with `files` and `primary_video`. -/
inductive ProcOut where
  | error (message : String)
  | success (files : List ResultFile) (primary : Option ResultFile)
  deriving DecidableEq, Repr

/-- `process_output_files`: flatten the manifest; with no records, the error
dict; otherwise one `ResultFile` per record plus the primary selection. -/
def process_output_files (env : CollectEnv) (root : String)
    (outputs : List (String × NodeOutput)) (jobId : String) : ProcOut × List Effect :=
  let output_files := collectRecs root outputs
  if output_files.isEmpty then (.error "No image or video outputs found.", [])
  else
    let r := collectLoop env jobId output_files
    (.success r.1 (primarySel r.1), r.2)

/- ===== completion polling ===== -/

/-- One entry of the history response; `outputs` is optionally present. -/
structure HistEntry where
  outputs : Option (List (String × NodeOutput))
  deriving DecidableEq, Repr

/-- The history response: a dict keyed by prompt id. -/
abbrev History := List (String × HistEntry)

/-- `prompt_id in history and history[prompt_id].get("outputs")`: the entry
exists and its outputs dict is present and non-empty. -/
def pollCond (h : History) (pid : String) : Bool :=
  match h.lookup pid with
  | none => false
  | some e =>
    match e.outputs with
    | none => false
    | some l => !l.isEmpty

/-- Result of the polling loop: success at a given attempt with the final
history response, retry exhaustion, or an uncaught-then-caught exception. -/
inductive PollOutcome where
  | success (attempt : Nat) (h : History)
  | maxRetries
  | exn (msg : String)
  deriving DecidableEq, Repr

/-- The polling loop; `i` is the index of the next attempt, the last
argument the remaining retry budget.  An exception aborts immediately; the
sleep between attempts is not modelled. -/
def pollAux (gh : Nat → Except String History) (pid : String) :
    Nat → Nat → PollOutcome × List Effect
  | _, 0 => (.maxRetries, [])
  | i, fuel + 1 =>
    match gh i with
    | .error m => (.exn m, [.poll i])
    | .ok h =>
      if pollCond h pid then (.success i h, [.poll i])
      else ((pollAux gh pid (i + 1) fuel).1, .poll i :: (pollAux gh pid (i + 1) fuel).2)

/-- The polling loop from attempt 0 with retry budget `maxR`. -/
def pollLoop (gh : Nat → Except String History) (pid : String) (maxR : Nat) :
    PollOutcome × List Effect :=
  pollAux gh pid 0 maxR

/- ===== the handler ===== -/

/-- An uncaught Python exception escaping the handler. -/
inductive PyErr where
  | keyError (k : String)
  deriving DecidableEq, Repr

/-- The handler's return value, one constructor per distinct dict shape the
source can return: `(error, message)`, the uploader's error dict passed
through unchanged, the collector's error dict merged with `refresh_worker`,
and the success dict merged with `refresh_worker`. -/
inductive HandlerRet where
  | errorRet (msg : String)
  | uploadErrRet (message : String) (details : List String)
  | collectErrRet (message : String) (refresh : Bool)
  | successRet (files : List ResultFile) (primary : Option ResultFile) (refresh : Bool)
  deriving DecidableEq, Repr

/-- Does the returned dict have the `(error, message)` shape? -/
def isErrorShape : HandlerRet → Bool
  | .errorRet _ => true
  | _ => false

/-- A job record; the `input` key is optionally present. -/
structure Job where
  id : String
  inputKey : Option RawInput
  deriving DecidableEq, Repr

/-- All oracles the handler consults, plus the environment-derived
configuration (`COMFY_POLLING_MAX_RETRIES`, `COMFY_OUTPUT_PATH`,
`REFRESH_WORKER`). -/
structure Env where
  probeRes : Nat → ProbeRes
  upload : UploadEnv
  submit : Workflow → Except String (List (String × String))
  getHist : String → Nat → Except String History
  pollMax : Nat
  collect : CollectEnv
  outRoot : String
  refreshWorker : Bool

/-- `history[prompt_id].get("outputs", {})` after a successful poll. -/
def histOutputs (h : History) (pid : String) : List (String × NodeOutput) :=
  match h.lookup pid with
  | some e => e.outputs.getD []
  | none => []

/-- Handler tail after a successful poll: collect output files and merge the
`refresh_worker` flag into the result dict. -/
def afterPoll (env : Env) (j : Job) (pid : String) (h : History) : HandlerRet × List Effect :=
  match process_output_files env.collect env.outRoot (histOutputs h pid) j.id with
  | (.error m, es) => (.collectErrRet m env.refreshWorker, es)
  | (.success files primary, es) => (.successRet files primary env.refreshWorker, es)

/-- Handler tail after a successful submission: poll for completion;
exhaustion and exceptions are fatal errors. -/
def afterSubmit (env : Env) (j : Job) (pid : String) : HandlerRet × List Effect :=
  match pollLoop (env.getHist pid) pid env.pollMax with
  | (.maxRetries, es) => (.errorRet "Max retries reached waiting for generation", es)
  | (.exn m, es) => (.errorRet ("Error while waiting for generation: " ++ m), es)
  | (.success _ h, es) => ((afterPoll env j pid h).1, es ++ (afterPoll env j pid h).2)

/-- Handler tail after a successful upload: queue the workflow and extract
`prompt_id`; any exception (including the KeyError on a missing
`prompt_id`) becomes a fatal error. -/
def afterUpload (env : Env) (j : Job) (v : Validated) : HandlerRet × List Effect :=
  match env.submit v.workflow with
  | .error m => (.errorRet ("Error queuing workflow: " ++ m), [.submit])
  | .ok q =>
    match q.lookup "prompt_id" with
    | none => (.errorRet "Error queuing workflow: \x27prompt_id\x27", [.submit])
    | some pid => ((afterSubmit env j pid).1, .submit :: (afterSubmit env j pid).2)

/-- Handler tail after successful validation: best-effort readiness probe,
then upload; an upload failure returns the uploader's dict unchanged. -/
def afterValidate (env : Env) (j : Job) (v : Validated) : HandlerRet × List Effect :=
  let es1 := (check_server env.probeRes 0 COMFY_API_AVAILABLE_MAX_RETRIES).2
  let u := (upload_images env.upload v.images).1
  let es2 := (upload_images env.upload v.images).2
  if u.status == "error" then (.uploadErrRet u.message u.details, es1 ++ es2)
  else ((afterUpload env j v).1, es1 ++ es2 ++ (afterUpload env j v).2)

/-- The handler: `job["input"]` (raising a KeyError when the key is absent),
validation, then the pipeline. -/
def handler (env : Env) (j : Job) : Except PyErr HandlerRet × List Effect :=
  match j.inputKey with
  | none => (.error (.keyError "input"), [])
  | some raw =>
    match validate_input raw with
    | .error m => (.ok (.errorRet m), [])
    | .ok v => (.ok (afterValidate env j v).1, (afterValidate env j v).2)

/- ===== helper lemmas: the upload loop ===== -/

/-- Extract the message of a failed entry. -/
def errOf : Except String String → Option String
  | .error m => some m
  | .ok _ => none

/-- Extract the message of a successful entry. -/
def okOf : Except String String → Option String
  | .ok m => some m
  | .error _ => none

theorem uploadLoop_oks (env : UploadEnv) : ∀ items : List ImageItem,
    (uploadLoop env items).1.1
      = (items.map fun img => (processImage env img).1).filterMap okOf := by
  intro items
  induction items with
  | nil => rfl
  | cons img rest ih =>
    simp only [uploadLoop, List.map_cons, List.filterMap_cons]
    cases hp : (processImage env img).1 with
    | ok m => simp [hp, okOf, ih]
    | error m => simp [hp, okOf, ih]

theorem uploadLoop_errs (env : UploadEnv) : ∀ items : List ImageItem,
    (uploadLoop env items).1.2
      = (items.map fun img => (processImage env img).1).filterMap errOf := by
  intro items
  induction items with
  | nil => rfl
  | cons img rest ih =>
    simp only [uploadLoop, List.map_cons, List.filterMap_cons]
    cases hp : (processImage env img).1 with
    | ok m => simp [hp, errOf, ih]
    | error m => simp [hp, errOf, ih]

theorem uploadLoop_errs_nil_iff (env : UploadEnv) (items : List ImageItem) :
    (uploadLoop env items).1.2 = []
      ↔ ∀ img ∈ items, ∃ m, (processImage env img).1 = Except.ok m := by
  rw [uploadLoop_errs, List.filterMap_eq_nil_iff]
  constructor
  · intro h img hmem
    have hx := h _ (List.mem_map_of_mem _ hmem)
    cases hp : (processImage env img).1 with
    | ok m => exact ⟨m, rfl⟩
    | error m => rw [hp] at hx; simp [errOf] at hx
  · intro h r hr
    obtain ⟨img, hmem, rfl⟩ := List.mem_map.mp hr
    obtain ⟨m, hm⟩ := h img hmem
    rw [hm]; rfl

theorem postBlob_ok_msg (env : UploadEnv) (name blob : String) (effs : List Effect) (m : String)
    (h : (postBlob env name blob effs).1 = .ok m) : m = "✅ Uploaded " ++ name := by
  simp only [postBlob] at h
  cases hp : env.post name blob with
  | exn e => rw [hp] at h; simp at h
  | code c text =>
    rw [hp] at h
    by_cases hc : (c != 200) = true
    · simp [hc] at h
    · simp only [Bool.not_eq_true] at hc
      simp [hc] at h
      exact h.symm

theorem processImage_ok_msg (env : UploadEnv) (img : ImageItem) (m : String)
    (h : (processImage env img).1 = .ok m) : m = "✅ Uploaded " ++ nameOf img := by
  obtain ⟨n, i, u⟩ := img
  cases u with
  | some url =>
    cases hd : env.download url with
    | exn e => simp [processImage, hd] at h
    | code c bytes =>
      by_cases hc : (c == 200) = true
      · cases ht : env.tmpRW ("/tmp/" ++ n.getD "None") bytes with
        | error e => simp [processImage, nameOf, hd, hc, ht] at h
        | ok blob =>
          simp only [processImage, nameOf, hd, hc, if_true, ht] at h
          simpa [nameOf] using postBlob_ok_msg env (n.getD "None") blob _ m h
      · simp [processImage, hd, hc] at h
  | none =>
    cases i with
    | some b64 =>
      cases hdec : env.decode b64 with
      | error e => simp [processImage, hdec] at h
      | ok blob =>
        simp only [processImage, nameOf, hdec] at h
        simpa [nameOf] using postBlob_ok_msg env (n.getD "None") blob _ m h
    | none => simp [processImage] at h

theorem uploadLoop_oks_all_ok (env : UploadEnv) (items : List ImageItem)
    (h : ∀ img ∈ items, ∃ m, (processImage env img).1 = Except.ok m) :
    (uploadLoop env items).1.1 = items.map fun img => "✅ Uploaded " ++ nameOf img := by
  induction items with
  | nil => rfl
  | cons a l ih =>
    obtain ⟨m, hm⟩ := h a (by simp)
    have hmsg := processImage_ok_msg env a m hm
    simp only [uploadLoop, List.map_cons]
    rw [hm]
    simp only [hmsg]
    rw [ih fun img hi => h img (by simp [hi])]

/- ===== C2: validation of the images list ===== -/

/-- C2 counterexample: an element carrying BOTH `image` and `url` (plus
`name`) passes validation, contradicting the claim that validation requires
exactly one of `image`/`url` and errors on an element carrying both. -/
theorem C2_counterexample :
    validate_input (.obj ⟨some "wf", .list [⟨some "a.png", some "B64DATA", some "http://u"⟩]⟩)
      = .ok ⟨"wf", some [⟨some "a.png", some "B64DATA", some "http://u"⟩]⟩ := rfl

/-- C2 (amended): with the `workflow` key present and `images` a list,
validation succeeds iff every element has `name` and AT LEAST one of
`image`/`url`; an element violating that (and a non-list `images` value)
yields the malformed-images error. -/
theorem C2_images_validation (o : InputObj) (wf : Workflow) (hw : o.workflow = some wf) :
    (∀ items, o.images = .list items →
        ((validate_input (.obj o) = .ok ⟨wf, some items⟩)
          ↔ ∀ it ∈ items, (it.image.isSome || it.url.isSome) = true ∧ it.name.isSome = true)
      ∧ ((∃ it ∈ items, itemOk it = false) →
          validate_input (.obj o) = .error malformedImagesMsg))
    ∧ (o.images = .notList → validate_input (.obj o) = .error malformedImagesMsg) := by
  obtain ⟨w, imgs⟩ := o
  simp only [InputObj.workflow] at hw
  subst hw
  constructor
  · intro items hi
    simp only [InputObj.images] at hi
    subst hi
    constructor
    · simp only [validate_input, validateObj]
      by_cases hall : (items.all itemOk) = true
      · rw [if_pos hall]
        rw [List.all_eq_true] at hall
        constructor
        · intro _ it hmem
          have hx := hall it hmem
          simp only [itemOk, Bool.and_eq_true] at hx
          exact hx
        · intro _; rfl
      · rw [if_neg hall]
        constructor
        · intro hx; exact absurd hx (by simp)
        · intro hx
          exfalso; apply hall
          rw [List.all_eq_true]
          intro it hmem
          simp only [itemOk, Bool.and_eq_true]
          exact hx it hmem
    · rintro ⟨it, hmem, hbad⟩
      simp only [validate_input, validateObj]
      have hall : ¬((items.all itemOk) = true) := by
        intro hx
        rw [List.all_eq_true] at hx
        rw [hx it hmem] at hbad
        simp at hbad
      rw [if_neg hall]
  · intro hi
    simp only [InputObj.images] at hi
    subst hi
    rfl

/-- C2 witness: an element lacking `name` makes validation fail with the
malformed-images error. -/
theorem C2_witness :
    validate_input (.obj ⟨some "wf", .list [⟨none, some "B64DATA", none⟩]⟩)
      = .error malformedImagesMsg :=
  ((C2_images_validation ⟨some "wf", .list [⟨none, some "B64DATA", none⟩]⟩ "wf" rfl).1
      [⟨none, some "B64DATA", none⟩] rfl).2
    ⟨⟨none, some "B64DATA", none⟩, by simp, by decide⟩

/- ===== C4: upload outcome classification ===== -/

/-- C4: the Input Uploader returns status "success" iff every entry
processed successfully, in which case the details list has exactly the
per-entry success messages in input order; any failure yields status
"error" with the accumulated per-entry error messages in input order; an
empty or absent input list short-circuits to success with empty details. -/
theorem C4_upload_outcome (env : UploadEnv) :
    ((upload_images env none).1 = ⟨"success", "No input files to upload", []⟩)
    ∧ ((upload_images env (some [])).1 = ⟨"success", "No input files to upload", []⟩)
    ∧ (∀ items, (upload_images env (some items)).1.status = "success"
        ↔ ∀ img ∈ items, ∃ m, (processImage env img).1 = Except.ok m)
    ∧ (∀ items, (∀ img ∈ items, ∃ m, (processImage env img).1 = Except.ok m) →
        (upload_images env (some items)).1.details
          = items.map fun img => "✅ Uploaded " ++ nameOf img)
    ∧ (∀ items, (upload_images env (some items)).1.status ≠ "success" →
        (upload_images env (some items)).1.status = "error"
          ∧ (upload_images env (some items)).1.details
              = (items.map fun img => (processImage env img).1).filterMap errOf) := by
  refine ⟨rfl, rfl, ?_, ?_, ?_⟩
  · intro items
    cases items with
    | nil => simp [upload_images]
    | cons a l =>
      simp only [upload_images]
      by_cases he : (uploadLoop env (a :: l)).1.2 = []
      · have he' : ((uploadLoop env (a :: l)).1.2).isEmpty = true := by simp [he]
        rw [if_pos he']
        constructor
        · intro _; exact (uploadLoop_errs_nil_iff env (a :: l)).mp he
        · intro _; rfl
      · have he' : ¬(((uploadLoop env (a :: l)).1.2).isEmpty = true) := by simp [he]
        rw [if_neg he']
        constructor
        · intro hx; simp at hx
        · intro hx
          exact absurd ((uploadLoop_errs_nil_iff env (a :: l)).mpr hx) he
  · intro items h
    cases items with
    | nil => rfl
    | cons a l =>
      have he : (uploadLoop env (a :: l)).1.2 = [] :=
        (uploadLoop_errs_nil_iff env (a :: l)).mpr h
      have he' : ((uploadLoop env (a :: l)).1.2).isEmpty = true := by simp [he]
      simp only [upload_images]
      rw [if_pos he']
      exact uploadLoop_oks_all_ok env (a :: l) h
  · intro items h
    cases items with
    | nil => exact absurd rfl h
    | cons a l =>
      simp only [upload_images] at h ⊢
      by_cases he : (uploadLoop env (a :: l)).1.2 = []
      · have he' : ((uploadLoop env (a :: l)).1.2).isEmpty = true := by simp [he]
        rw [if_pos he'] at h
        exact absurd rfl h
      · have he' : ¬(((uploadLoop env (a :: l)).1.2).isEmpty = true) := by simp [he]
        rw [if_neg he'] at h ⊢
        exact ⟨rfl, uploadLoop_errs env (a :: l)⟩

/-- Environment in which every upload succeeds. -/
def uploadEnvOk : UploadEnv :=
  ⟨fun _ => .code 200 "DL", fun _ b => .ok b, fun _ => .ok "BYTES", fun _ _ => .code 200 "ok"⟩

/-- C4 witness: two entries (one inline, one URL-sourced) both succeed and
the details list has one success message per input, in input order. -/
theorem C4_witness :
    (upload_images uploadEnvOk
        (some [⟨some "a.png", some "IMGB64", none⟩, ⟨some "b.png", none, some "http://u"⟩])).1.details
      = ["✅ Uploaded a.png", "✅ Uploaded b.png"] := by
  have h := (C4_upload_outcome uploadEnvOk).2.2.2.1
    [⟨some "a.png", some "IMGB64", none⟩, ⟨some "b.png", none, some "http://u"⟩]
    (by
      intro img hmem
      rcases List.mem_cons.mp hmem with rfl | h2
      · exact ⟨_, rfl⟩
      · rcases List.mem_cons.mp h2 with rfl | h3
        · exact ⟨_, rfl⟩
        · exact absurd h3 (List.not_mem_nil img))
  exact h.trans (by decide)

/- ===== C9: the uploader is total and failures are per-entry ===== -/

/-- C9: the uploader never raises.  Processing is compositional (a failing
entry does not stop the loop: the outcome of a concatenation is the
concatenation of the outcomes), every entry contributes exactly one
success-or-error record, and each exception source named in the source
(download transport error, invalid base64 payload, temporary-file I/O
error) is caught and turned into that entry's error message. -/
theorem C9_uploader_total (env : UploadEnv) :
    (∀ l1 l2 : List ImageItem,
        (uploadLoop env (l1 ++ l2)).1.1 = (uploadLoop env l1).1.1 ++ (uploadLoop env l2).1.1
      ∧ (uploadLoop env (l1 ++ l2)).1.2 = (uploadLoop env l1).1.2 ++ (uploadLoop env l2).1.2)
    ∧ (∀ items : List ImageItem,
        (uploadLoop env items).1.1.length + (uploadLoop env items).1.2.length = items.length)
    ∧ (∀ (img : ImageItem) url m, img.url = some url → env.download url = .exn m →
        (processImage env img).1 = .error ("Error processing " ++ nameOf img ++ ": " ++ m))
    ∧ (∀ (img : ImageItem) b m, img.url = none → img.image = some b → env.decode b = .error m →
        (processImage env img).1 = .error ("Error processing " ++ nameOf img ++ ": " ++ m))
    ∧ (∀ (img : ImageItem) url bytes m, img.url = some url →
        env.download url = .code 200 bytes →
        env.tmpRW ("/tmp/" ++ nameOf img) bytes = .error m →
        (processImage env img).1 = .error ("Error processing " ++ nameOf img ++ ": " ++ m)) := by
  refine ⟨?_, ?_, ?_, ?_, ?_⟩
  · intro l1 l2
    induction l1 with
    | nil => simp [uploadLoop]
    | cons a l ih =>
      simp only [List.cons_append, uploadLoop]
      cases hp : (processImage env a).1 <;> simp [hp, ih.1, ih.2]
  · intro items
    induction items with
    | nil => rfl
    | cons a l ih =>
      simp only [uploadLoop]
      cases hp : (processImage env a).1 <;> simp [hp] <;> omega
  · intro img url m hu hd
    simp [processImage, hu, hd]
  · intro img b m hu hi hdec
    simp [processImage, hu, hi, hdec]
  · intro img url bytes m hu hd ht
    simp [processImage, hu, hd, ht]

/-- Environment whose base64 decoding raises. -/
def uploadEnvDecodeFail : UploadEnv :=
  ⟨fun _ => .code 200 "DL", fun _ b => .ok b, fun _ => .error "Incorrect padding",
    fun _ _ => .code 200 "ok"⟩

/-- C9 witness: an invalid base64 payload is caught and becomes that
entry's error message. -/
theorem C9_witness :
    (processImage uploadEnvDecodeFail ⟨some "a.png", some "xx", none⟩).1
      = .error "Error processing a.png: Incorrect padding" :=
  (C9_uploader_total uploadEnvDecodeFail).2.2.2.1 ⟨some "a.png", some "xx", none⟩ "xx"
    "Incorrect padding" rfl rfl rfl

/- ===== concrete environments used by witnesses and counterexamples ===== -/

/-- Upload environment whose downloads answer HTTP 500. -/
def uploadEnvFail : UploadEnv :=
  ⟨fun _ => .code 500 "", fun _ b => .ok b, fun _ => .ok "BYTES", fun _ _ => .code 200 "ok"⟩

/-- Collector environment: no bucket, every file exists, inline-encode to "B64". -/
def collectEnvOk : CollectEnv := ⟨none, fun _ => true, fun _ _ => "URL", fun _ => "B64"⟩

/-- Handler environment: server reachable, downloads fail, submission and
polling trivial. -/
def envCX : Env :=
  ⟨fun _ => .code 200, uploadEnvFail, fun _ => .ok [("prompt_id", "p1")],
    fun _ _ => .ok [], 5, collectEnvOk, "/comfyui/output", false⟩

/-- A job whose single input image is URL-sourced. -/
def jobCX : Job := ⟨"j1", some (.obj ⟨some "wf", .list [⟨some "a.png", none, some "http://x"⟩]⟩)⟩

/-- History response whose entry has an empty outputs dict. -/
def histU : History := [("p1", ⟨some []⟩)]

def nodeEmpty : NodeOutput := ⟨none, none, none, none⟩

/-- History response whose entry has a non-empty outputs dict. -/
def histS : History := [("p1", ⟨some [("3", nodeEmpty)]⟩)]

/-- Poll oracle: empty outputs on attempt 0, non-empty from attempt 1 on. -/
def ghC3 : Nat → Except String History := fun i => if i == 0 then .ok histU else .ok histS

/- ===== helper lemmas: the polling loop ===== -/

theorem pollAux_success_char (gh : Nat → Except String History) (pid : String) :
    ∀ fuel i t h, (pollAux gh pid i fuel).1 = .success t h →
      i ≤ t ∧ t < i + fuel ∧ gh t = .ok h ∧ pollCond h pid = true ∧
        ∀ j, i ≤ j → j < t → ∃ hj, gh j = .ok hj ∧ pollCond hj pid = false := by
  intro fuel
  induction fuel with
  | zero => intro i t h hx; simp [pollAux] at hx
  | succ n ih =>
    intro i t h hx
    cases hg : gh i with
    | error m => simp [pollAux, hg] at hx
    | ok hist =>
      simp only [pollAux, hg] at hx
      by_cases hc : pollCond hist pid = true
      · rw [if_pos hc] at hx
        simp only [PollOutcome.success.injEq] at hx
        obtain ⟨rfl, rfl⟩ := hx
        refine ⟨le_refl i, by omega, hg, hc, ?_⟩
        intro j hj1 hj2; omega
      · rw [if_neg hc] at hx
        have hx' : (pollAux gh pid (i + 1) n).1 = .success t h := hx
        obtain ⟨h1, h2, h3, h4, h5⟩ := ih (i + 1) t h hx'
        refine ⟨by omega, by omega, h3, h4, ?_⟩
        intro j hj1 hj2
        rcases Nat.lt_or_ge j (i + 1) with hj | hj
        · have hj0 : j = i := by omega
          subst hj0
          exact ⟨hist, hg, by simpa using hc⟩
        · exact h5 j hj hj2

theorem pollAux_reach (gh : Nat → Except String History) (pid : String) :
    ∀ fuel i t h, i ≤ t → t < i + fuel → gh t = .ok h → pollCond h pid = true →
      (∀ j, i ≤ j → j < t → ∃ hj, gh j = .ok hj ∧ pollCond hj pid = false) →
      (pollAux gh pid i fuel).1 = .success t h := by
  intro fuel
  induction fuel with
  | zero => intro i t h h1 h2 _ _ _; omega
  | succ n ih =>
    intro i t h h1 h2 h3 h4 h5
    rcases Nat.eq_or_lt_of_le h1 with rfl | hlt
    · simp only [pollAux, h3]
      rw [if_pos h4]
    · obtain ⟨hj, hgj, hcj⟩ := h5 i (le_refl i) hlt
      simp only [pollAux, hgj]
      rw [if_neg (by simp [hcj])]
      exact ih (i + 1) t h (by omega) (by omega) h3 h4 fun j ha hb => h5 j (by omega) hb

theorem pollAux_exhaust (gh : Nat → Except String History) (pid : String) :
    ∀ fuel i,
      (∀ j, i ≤ j → j < i + fuel → ∃ hj, gh j = .ok hj ∧ pollCond hj pid = false) →
      (pollAux gh pid i fuel).1 = .maxRetries := by
  intro fuel
  induction fuel with
  | zero => intro i _; rfl
  | succ n ih =>
    intro i hall
    obtain ⟨hj, hgj, hcj⟩ := hall i (le_refl i) (by omega)
    simp only [pollAux, hgj]
    rw [if_neg (by simp [hcj])]
    exact ih (i + 1) fun j ha hb => hall j (by omega) (by omega)

theorem pollAux_exn (gh : Nat → Except String History) (pid : String) :
    ∀ fuel i t m, i ≤ t → t < i + fuel → gh t = .error m →
      (∀ j, i ≤ j → j < t → ∃ hj, gh j = .ok hj ∧ pollCond hj pid = false) →
      (pollAux gh pid i fuel).1 = .exn m := by
  intro fuel
  induction fuel with
  | zero => intro i t m h1 h2 _ _; omega
  | succ n ih =>
    intro i t m h1 h2 h3 h4
    rcases Nat.eq_or_lt_of_le h1 with rfl | hlt
    · simp [pollAux, h3]
    · obtain ⟨hj, hgj, hcj⟩ := h4 i (le_refl i) hlt
      simp only [pollAux, hgj]
      rw [if_neg (by simp [hcj])]
      exact ih (i + 1) t m (by omega) (by omega) h3 fun j ha hb => h4 j (by omega) hb

/- ===== C3: completion polling ===== -/

/-- C3: a polling attempt succeeds, stopping the loop at that attempt, iff
the history response at that attempt has an entry for the identifier with a
non-empty outputs field and all earlier attempts were unsatisfied; P
consecutive unsatisfied attempts exhaust the budget, which the handler maps
to the fatal "Max retries reached" error; an exception at any reached
attempt aborts immediately with a fatal error, regardless of what later
attempts would return. -/
theorem C3_polling (env : Env) (j : Job) (gh : Nat → Except String History)
    (pid : String) (P : Nat) :
    (∀ i h, (pollLoop gh pid P).1 = .success i h →
        i < P ∧ gh i = .ok h ∧ pollCond h pid = true ∧
          ∀ k, k < i → ∃ hk, gh k = .ok hk ∧ pollCond hk pid = false)
    ∧ (∀ i h, i < P → gh i = .ok h → pollCond h pid = true →
        (∀ k, k < i → ∃ hk, gh k = .ok hk ∧ pollCond hk pid = false) →
        (pollLoop gh pid P).1 = .success i h)
    ∧ ((∀ i, i < P → ∃ h, gh i = .ok h ∧ pollCond h pid = false) →
        (pollLoop gh pid P).1 = .maxRetries)
    ∧ (∀ i m, i < P → gh i = .error m →
        (∀ k, k < i → ∃ hk, gh k = .ok hk ∧ pollCond hk pid = false) →
        (pollLoop gh pid P).1 = .exn m)
    ∧ ((pollLoop (env.getHist pid) pid env.pollMax).1 = .maxRetries →
        (afterSubmit env j pid).1 = .errorRet "Max retries reached waiting for generation")
    ∧ (∀ m, (pollLoop (env.getHist pid) pid env.pollMax).1 = .exn m →
        (afterSubmit env j pid).1
          = .errorRet ("Error while waiting for generation: " ++ m)) := by
  refine ⟨?_, ?_, ?_, ?_, ?_, ?_⟩
  · intro i h hx
    obtain ⟨h1, h2, h3, h4, h5⟩ := pollAux_success_char gh pid P 0 i h hx
    exact ⟨by omega, h3, h4, fun k hk => h5 k (by omega) hk⟩
  · intro i h hP hg hc hall
    exact pollAux_reach gh pid P 0 i h (by omega) (by omega) hg hc fun k _ hk => hall k hk
  · intro hall
    exact pollAux_exhaust gh pid P 0 fun k _ hk => hall k (by omega)
  · intro i m hP hg hall
    exact pollAux_exn gh pid P 0 i m (by omega) (by omega) hg fun k _ hk => hall k hk
  · intro hx
    rcases hpl : pollLoop (env.getHist pid) pid env.pollMax with ⟨o, es⟩
    rw [hpl] at hx
    simp only [Prod.fst] at hx
    subst hx
    simp [afterSubmit, hpl]
  · intro m hx
    rcases hpl : pollLoop (env.getHist pid) pid env.pollMax with ⟨o, es⟩
    rw [hpl] at hx
    simp only [Prod.fst] at hx
    subst hx
    simp [afterSubmit, hpl]

/-- C3 witness: with empty outputs on attempt 0 and non-empty outputs on
attempt 1, the loop keeps polling past attempt 0 and stops at attempt 1. -/
theorem C3_witness : (pollLoop ghC3 "p1" 5).1 = .success 1 histS :=
  (C3_polling envCX jobCX ghC3 "p1" 5).2.1 1 histS (by omega) rfl rfl
    (by
      intro k hk
      have hk0 : k = 0 := by omega
      subst hk0
      exact ⟨histU, rfl, rfl⟩)

/- ===== helper lemmas: the collection loop ===== -/

theorem collectLoop_files (env : CollectEnv) (jobId : String) :
    ∀ recs : List OutputRec,
      (collectLoop env jobId recs).1 = recs.map fun r => (mkResult env jobId r).1 := by
  intro recs
  induction recs with
  | nil => rfl
  | cons r rest ih => simp [collectLoop, ih]

theorem primarySel_mem (results : List ResultFile) (f : ResultFile)
    (h : primarySel results = some f) : f ∈ results := by
  simp only [primarySel] at h
  cases hA : results.find? isVideoAudio with
  | some g =>
    rw [hA] at h
    simp only [Option.some.injEq] at h
    subst h
    exact List.mem_of_find?_eq_some hA
  | none =>
    rw [hA] at h
    exact List.mem_of_find?_eq_some h

theorem isVideoAudio_eq_false_of (f : ResultFile) (h : isVideoFile f = false) :
    isVideoAudio f = false := by
  simp only [isVideoFile] at h
  simp [isVideoAudio, h]

theorem find?_first_true {α : Type _} (p : α → Bool) :
    ∀ (l1 : List α) (f : α) (l2 : List α), p f = true → (∀ g ∈ l1, p g = false) →
      (l1 ++ f :: l2).find? p = some f := by
  intro l1
  induction l1 with
  | nil =>
    intro f l2 hf _
    simp [List.find?_cons_of_pos _ hf]
  | cons a l ih =>
    intro f l2 hf hall
    have ha : p a = false := hall a (by simp)
    simp only [List.cons_append]
    rw [List.find?_cons_of_neg _ (by simp [ha])]
    exact ih f l2 hf fun g hg => hall g (by simp [hg])

/- ===== C5: the output collector ===== -/

/-- C5: whenever the flattened manifest yields at least one OutputRecord,
the collector returns the success dict with exactly one ResultFile per
record, in record order; a record whose local file does not exist maps to a
ResultFile with status "missing" (with a message, no url and no data),
without failing the overall result. -/
theorem C5_collector (env : CollectEnv) (root : String)
    (outputs : List (String × NodeOutput)) (jobId : String)
    (hne : collectRecs root outputs ≠ []) :
    ((process_output_files env root outputs jobId).1
        = .success ((collectRecs root outputs).map fun r => (mkResult env jobId r).1)
            (primarySel ((collectRecs root outputs).map fun r => (mkResult env jobId r).1)))
    ∧ (∀ r : OutputRec, env.fileExists r.path = false →
        (mkResult env jobId r).1
          = ⟨r.type, basename r.path, "missing", none, none,
              some ("File not found: " ++ r.path)⟩) := by
  constructor
  · simp only [process_output_files]
    rw [if_neg (by simpa [List.isEmpty_iff] using hne)]
    rw [collectLoop_files]
  · intro r hr
    simp [mkResult, hr]

/-- Collector environment for the C5 witness: only `a.png` exists locally. -/
def envC5 : CollectEnv :=
  ⟨none, fun p => p == "/comfyui/output/a.png", fun _ _ => "URL", fun _ => "DATA"⟩

def outC5 : List (String × NodeOutput) :=
  [("1", ⟨some [⟨some "a.png", none⟩, ⟨some "b.png", none⟩], none, none, none⟩)]

/-- C5 witness: one existing and one missing output; the collector returns
success with one ResultFile per record, the second marked "missing". -/
theorem C5_witness :
    (process_output_files envC5 "/comfyui/output" outC5 "j").1
      = .success
          [⟨"image", "a.png", "base64", none, some "DATA", none⟩,
            ⟨"image", "b.png", "missing", none, none,
              some "File not found: /comfyui/output/b.png"⟩]
          none := by
  have h := (C5_collector envC5 "/comfyui/output" outC5 "j" (by decide)).1
  exact h.trans (by decide)

/- ===== C6: primary-video selection ===== -/

/-- Collector environment for the C6 example: every file exists, no bucket. -/
def envC6 : CollectEnv := ⟨none, fun _ => true, fun _ _ => "", fun _ => "B64"⟩

def outC6 : List (String × NodeOutput) :=
  [("9", ⟨none, none, some [⟨some "clip.mp4", none⟩, ⟨some "clip-audio.mp4", none⟩], none⟩)]

def clipFile : ResultFile := ⟨"video", "clip.mp4", "base64", none, some "B64", none⟩

def clipAudioFile : ResultFile := ⟨"video", "clip-audio.mp4", "base64", none, some "B64", none⟩

def imgFileW : ResultFile := ⟨"image", "x.png", "base64", none, some "B64", none⟩

/-- C6: primary_video is the first video ResultFile whose filename contains
"-audio"; with no such file it is the first video in encounter order; with
no videos at all it is none.  On the concrete outputs "clip.mp4" and
"clip-audio.mp4" the collector selects "clip-audio.mp4". -/
theorem C6_primary_selection :
    (∀ (l1 : List ResultFile) (f : ResultFile) (l2 : List ResultFile),
        isVideoAudio f = true → (∀ g ∈ l1, isVideoAudio g = false) →
        primarySel (l1 ++ f :: l2) = some f)
    ∧ (∀ results : List ResultFile, (∀ g ∈ results, isVideoAudio g = false) →
        ∀ (l1 : List ResultFile) (f : ResultFile) (l2 : List ResultFile),
          results = l1 ++ f :: l2 → isVideoFile f = true →
          (∀ g ∈ l1, isVideoFile g = false) →
          primarySel results = some f)
    ∧ (∀ results : List ResultFile, (∀ g ∈ results, isVideoFile g = false) →
        primarySel results = none)
    ∧ ((process_output_files envC6 "/comfyui/output" outC6 "j").1
        = .success [clipFile, clipAudioFile] (some clipAudioFile)) := by
  refine ⟨?_, ?_, ?_, by rfl⟩
  · intro l1 f l2 hf hall
    simp only [primarySel]
    rw [find?_first_true isVideoAudio l1 f l2 hf hall]
  · intro results hnone l1 f l2 hres hf hall
    subst hres
    have hA : (l1 ++ f :: l2).find? isVideoAudio = none :=
      List.find?_eq_none.mpr fun x hx => by simp [hnone x hx]
    simp only [primarySel, hA]
    exact find?_first_true isVideoFile l1 f l2 hf hall
  · intro results hnone
    have hA : results.find? isVideoAudio = none :=
      List.find?_eq_none.mpr fun x hx => by
        simp [isVideoAudio_eq_false_of x (hnone x hx)]
    have hV : results.find? isVideoFile = none :=
      List.find?_eq_none.mpr fun x hx => by simp [hnone x hx]
    simp [primarySel, hA, hV]

/-- C6 witness: the audio-marked video is selected ahead of a non-video
file appearing earlier in the list. -/
theorem C6_witness : primarySel [imgFileW, clipAudioFile] = some clipAudioFile :=
  C6_primary_selection.1 [imgFileW] clipAudioFile [] (by decide) (by decide)

/- ===== C10: the primary video is drawn from the files list ===== -/

/-- Collector environment for the C10 example: no file exists on disk. -/
def envC10 : CollectEnv := ⟨none, fun _ => false, fun _ _ => "", fun _ => ""⟩

def outC10 : List (String × NodeOutput) :=
  [("1", ⟨none, none, some [⟨some "clip.mp4", none⟩], none⟩)]

def missingClip : ResultFile :=
  ⟨"video", "clip.mp4", "missing", none, none,
    some "File not found: /comfyui/output/clip.mp4"⟩

/-- C10: on every success result the selected primary_video is an element
of the files list (or none); the selection scan does not exclude "missing"
ResultFiles, so concretely a missing video — carrying neither url nor
data — can be selected as primary_video. -/
theorem C10_primary_membership :
    (∀ (env : CollectEnv) (root : String) (outputs : List (String × NodeOutput))
        (jobId : String) (files : List ResultFile) (primary : Option ResultFile)
        (f : ResultFile),
        (process_output_files env root outputs jobId).1 = .success files primary →
        primary = some f → f ∈ files)
    ∧ ((process_output_files envC10 "/comfyui/output" outC10 "j").1
        = .success [missingClip] (some missingClip))
    ∧ missingClip.status = "missing" ∧ missingClip.url = none ∧ missingClip.data = none := by
  refine ⟨?_, rfl, rfl, rfl, rfl⟩
  intro env root outputs jobId files primary f hs hp
  by_cases he : ((collectRecs root outputs).isEmpty) = true
  · simp only [process_output_files] at hs
    rw [if_pos he] at hs
    simp at hs
  · simp only [process_output_files] at hs
    rw [if_neg he] at hs
    have hs' : ProcOut.success (collectLoop env jobId (collectRecs root outputs)).1
        (primarySel (collectLoop env jobId (collectRecs root outputs)).1)
          = .success files primary := hs
    injection hs' with h1 h2
    subst h1
    exact primarySel_mem _ f (h2.trans hp)

/-- C10 witness: the concrete missing video selected as primary_video is a
member of the files list. -/
theorem C10_witness : missingClip ∈ [missingClip] :=
  C10_primary_membership.1 envC10 "/comfyui/output" outC10 "j" [missingClip]
    (some missingClip) missingClip rfl rfl

/- ===== C1: shape of the handler's return value ===== -/

/-- C1 counterexample: on the fatal input-upload path the handler returns
the uploader's `(status, message, details)` dict unchanged, which does not
have the `(error, message)` shape the claim asserts for every fatal path. -/
theorem C1_counterexample :
    (handler envCX jobCX).1
      = .ok (.uploadErrRet "Some files failed to upload"
          ["Failed to download a.png: HTTP 500"])
    ∧ isErrorShape (.uploadErrRet "Some files failed to upload"
        ["Failed to download a.png: HTTP 500"]) = false :=
  ⟨rfl, rfl⟩

/-- C1 (amended): validation failures, submission failures, polling
timeouts and polling exceptions return the `(error, message)` shape; an
input-upload failure instead returns the uploader's
`(status: error, message, details)` dict unchanged; a run with no
OutputRecords returns the collector's `(status: error, message)` dict
merged with `refresh_worker`; a success returns
`(status, files, primary_video, refresh_worker)`. -/
theorem C1_fatal_error_shapes (env : Env) (id : String) (raw : RawInput) :
    (∀ m, validate_input raw = .error m →
        (handler env ⟨id, some raw⟩).1 = .ok (.errorRet m))
    ∧ (∀ v, validate_input raw = .ok v →
        (handler env ⟨id, some raw⟩).1 = .ok ((afterValidate env ⟨id, some raw⟩ v).1))
    ∧ (∀ (j : Job) (v : Validated),
        (upload_images env.upload v.images).1.status = "error" →
        (afterValidate env j v).1
          = .uploadErrRet (upload_images env.upload v.images).1.message
              (upload_images env.upload v.images).1.details)
    ∧ (∀ (j : Job) (v : Validated),
        (upload_images env.upload v.images).1.status ≠ "error" →
        (afterValidate env j v).1 = (afterUpload env j v).1)
    ∧ (∀ (j : Job) (v : Validated) m, env.submit v.workflow = .error m →
        (afterUpload env j v).1 = .errorRet ("Error queuing workflow: " ++ m))
    ∧ (∀ (j : Job) (v : Validated) q, env.submit v.workflow = .ok q →
        q.lookup "prompt_id" = none →
        (afterUpload env j v).1 = .errorRet "Error queuing workflow: \x27prompt_id\x27")
    ∧ (∀ (j : Job) (pid : String),
        (pollLoop (env.getHist pid) pid env.pollMax).1 = .maxRetries →
        (afterSubmit env j pid).1 = .errorRet "Max retries reached waiting for generation")
    ∧ (∀ (j : Job) (pid : String) m,
        (pollLoop (env.getHist pid) pid env.pollMax).1 = .exn m →
        (afterSubmit env j pid).1
          = .errorRet ("Error while waiting for generation: " ++ m))
    ∧ (∀ (j : Job) (pid : String) (h : History) m,
        (process_output_files env.collect env.outRoot (histOutputs h pid) j.id).1
          = .error m →
        (afterPoll env j pid h).1 = .collectErrRet m env.refreshWorker)
    ∧ (∀ (j : Job) (pid : String) (h : History) files primary,
        (process_output_files env.collect env.outRoot (histOutputs h pid) j.id).1
          = .success files primary →
        (afterPoll env j pid h).1 = .successRet files primary env.refreshWorker) := by
  refine ⟨?_, ?_, ?_, ?_, ?_, ?_, ?_, ?_, ?_, ?_⟩
  · intro m hm
    simp [handler, hm]
  · intro v hv
    simp [handler, hv]
  · intro j v h
    simp only [afterValidate]
    rw [if_pos (by simp [h])]
  · intro j v h
    simp only [afterValidate]
    rw [if_neg (by simpa using h)]
  · intro j v m h
    simp [afterUpload, h]
  · intro j v q hq hl
    simp [afterUpload, hq, hl]
  · intro j pid hx
    rcases hpl : pollLoop (env.getHist pid) pid env.pollMax with ⟨o, es⟩
    rw [hpl] at hx
    simp only [Prod.fst] at hx
    subst hx
    simp [afterSubmit, hpl]
  · intro j pid m hx
    rcases hpl : pollLoop (env.getHist pid) pid env.pollMax with ⟨o, es⟩
    rw [hpl] at hx
    simp only [Prod.fst] at hx
    subst hx
    simp [afterSubmit, hpl]
  · intro j pid h m hx
    rcases hpo : process_output_files env.collect env.outRoot (histOutputs h pid) j.id
      with ⟨o, es⟩
    rw [hpo] at hx
    simp only [Prod.fst] at hx
    subst hx
    simp [afterPoll, hpo]
  · intro j pid h files primary hx
    rcases hpo : process_output_files env.collect env.outRoot (histOutputs h pid) j.id
      with ⟨o, es⟩
    rw [hpo] at hx
    simp only [Prod.fst] at hx
    subst hx
    simp [afterPoll, hpo]

/-- C1 witness: a validation failure surfaces as the `(error, message)`
shape. -/
theorem C1_witness :
    (handler envCX ⟨"j", some .null⟩).1 = .ok (.errorRet "Please provide input") :=
  (C1_fatal_error_shapes envCX "j" .null).1 "Please provide input" rfl

/- ===== C7: missing workflow key ===== -/

/-- C7: for a job input lacking the workflow key (whether supplied as an
object or as a string that parses to one), the handler returns the
missing-workflow error and its effect trace is empty: no probe, upload,
submission or poll is performed. -/
theorem C7_missing_workflow (env : Env) (id : String) (raw : RawInput) (o : InputObj)
    (hr : raw = .obj o ∨ raw = .strObj o) (hw : o.workflow = none) :
    handler env ⟨id, some raw⟩
      = (.ok (.errorRet "Missing \x27workflow\x27 parameter"), []) := by
  obtain ⟨w, imgs⟩ := o
  simp only [InputObj.workflow] at hw
  subst hw
  rcases hr with rfl | rfl <;> rfl

/-- C7 witness: a concrete object input without a workflow key. -/
theorem C7_witness :
    handler envCX ⟨"job-1", some (.obj ⟨none, .absent⟩)⟩
      = (.ok (.errorRet "Missing \x27workflow\x27 parameter"), []) :=
  C7_missing_workflow envCX "job-1" (.obj ⟨none, .absent⟩) ⟨none, .absent⟩ (Or.inl rfl) rfl

/- ===== C8: missing "input" key raises ===== -/

/-- C8: a job record without the "input" key makes the handler raise a
KeyError (an uncaught exception, not an `(error, message)` result), while
an "input" key present with a null value triggers the null-input
validation rule and returns the `(error, message)` result. -/
theorem C8_missing_input_key (env : Env) (id : String) :
    handler env ⟨id, none⟩ = (.error (.keyError "input"), [])
    ∧ handler env ⟨id, some .null⟩ = (.ok (.errorRet "Please provide input"), []) :=
  ⟨rfl, rfl⟩

end RpHandler

